import Mathlib

/-!
Verification development for the summybot conversation-summarization core
(`src/summarizer.py`, with the lightweight variant `summarizer_lite.py`).

The Python code is shallowly embedded as executable Lean definitions:

* a Discord message record is the `Message` structure below (the fields are
  the only attributes the core reads: `message.author.display_name`,
  `message.content`, `message.channel.name`, `message.created_at`;
  timestamps are modelled as naturals, which is faithful because the code
  only ever compares them);
* `message.guild.get_member` / `get_channel` lookups are modelled by a
  `Guild` record of partial lookup functions;
* Python dicts (insertion ordered) become association lists, Python sets
  become insertion-ordered duplicate-free lists (Python set iteration order
  is implementation defined; none of the proved properties depend on it);
* the regular-expression substitutions of the source are implemented as
  deterministic left-to-right scanners over `List Char`.  Each regex used by
  the code is simple enough that the backtracking engine is deterministic
  (greedy sub-matches followed by literal requirements that character
  classes can never satisfy), so a single-pass scanner is an exact model;
  the scanners take an explicit fuel argument (always called with the text
  length) so that they are structurally recursive and kernel-evaluable.
  Python's `\w`/`\b`/`str.lower`/`str.upper` are Unicode aware; they are
  modelled here on the ASCII word class, which coincides with Python on
  every character adjacent to a match in the statements proved below;
* functions that can raise return `Except PyErr`; a `try/except` block
  becomes a `match` on that result;
* the two remote strategies (`_summarize_with_openai`, the transformers
  pipeline call of `_summarize_with_transformers`) are external network /
  model effects and are modelled as oracle parameters `oc` / `lc` with the
  same interfaces the code gives them (the openai tier receives the text
  and the custom prompt, the local tier receives only the text).

Note the source file in this repository is stored mojibake-encoded: every
emoji literal of `summarizer.py` is a short sequence of Latin-1 code points
(for example the `bee!` marker is the two characters `U+00F0 U+0178`).  The
embedding reproduces those exact code-point sequences, since that is what
the program itself manipulates.
-/

open List

/-- Character predicate for Python `str.strip()` / regex `\s` (ASCII part). -/
def pySpace (c : Char) : Bool :=
  c == ' ' || c == '\t' || c == '\n' || c == '\r' || c == '\x0b' || c == '\x0c'

/-- Regex word character `[A-Za-z0-9_]` (ASCII part of Python `\w`). -/
def isWordChar (c : Char) : Bool :=
  c.isAlphanum || c == '_'

/-- ASCII lower-casing, modelling `str.lower()` on the names in scope. -/
def pyLowerChar (c : Char) : Char := c.toLower

/-- ASCII upper-casing, modelling `str.upper()` on the names in scope. -/
def pyUpperChar (c : Char) : Char := c.toUpper

/-- Lower-case a whole string (`participant.lower()`). -/
def pyLower (s : String) : String := String.mk (s.data.map pyLowerChar)

/-- Python `content.strip()`: drop whitespace from both ends. -/
def pyStrip (l : List Char) : List Char :=
  ((l.dropWhile pySpace).reverse.dropWhile pySpace).reverse

/-- Python `text.split('\n')`: split at every newline, keeping empty parts
(`""` splits to `[""]`). -/
def splitLines : List Char → List (List Char)
  | [] => [[]]
  | c :: cs =>
    if c = '\n' then [] :: splitLines cs
    else
      match splitLines cs with
      | [] => [[c]]
      | l :: ls => (c :: l) :: ls

/-- Python `pat in l` substring test. -/
def containsSub : List Char → List Char → Bool
  | [], pat => pat.isEmpty
  | c :: cs, pat => pat.isPrefixOf (c :: cs) || containsSub cs pat

/-- Python `"\n".join(lines)`. -/
def joinNl : List (List Char) → List Char
  | [] => []
  | [l] => l
  | l :: ls => l ++ '\n' :: joinNl ls

/-- Numeric value of a digit run (the `int(...)` applied to a regex group). -/
def digitsVal (ds : List Char) : Nat :=
  ds.foldl (fun n c => n * 10 + (c.toNat - 48)) 0

/-- Discord message record: exactly the attributes `summarizer.py` reads. -/
structure Message where
  author_display_name : String
  content : String
  channel_name : String
  created_at : Nat
deriving DecidableEq

/-- The `message.guild` lookups used while resolving mention tokens. -/
structure Guild where
  members : Nat → Option String
  channels : Nat → Option String

/-! ### Spoiler replacement

`re.sub(r'\|\|(.+?)\|\|', '[SPOILER CONTENT]', content)` — a lazy body of
at least one non-newline character between two `||` markers.  `closeSplit`
finds the lazy (shortest, nonempty, newline-free) body together with the
text after the closing marker.  When an opening `||` has no closing match,
the scanner emits both pipes and continues: a match starting at the second
pipe would require a closing marker that would also have closed the first,
so this agrees with the regex engine restarting one character later. -/

/-- Both leading characters are pipes. -/
def twoBars : List Char → Bool
  | a :: b :: _ => a == '|' && b == '|'
  | _ => false

/-- Shortest split `l = body ++ '|' :: '|' :: rest` with `body` nonempty and
newline-free (the lazy group `(.+?)` followed by the closing `\|\|`). -/
def closeSplit : List Char → Option (List Char × List Char)
  | [] => none
  | c :: cs =>
    if c == '\n' then none
    else if twoBars cs then some ([c], cs.drop 2)
    else
      match closeSplit cs with
      | some (body, rest) => some (c :: body, rest)
      | none => none

/-- The fixed placeholder substituted for every spoiler span. -/
def spoilerRepl : List Char := "[SPOILER CONTENT]".data

/-- Fuel-indexed spoiler scanner (fuel is always the text length). -/
def spoilerSubF : Nat → List Char → List Char
  | 0, l => l
  | _ + 1, [] => []
  | _ + 1, [c] => [c]
  | f + 1, c :: d :: cs =>
    if c == '|' && d == '|' then
      match closeSplit cs with
      | some (_, rest) => spoilerRepl ++ spoilerSubF f rest
      | none => c :: d :: spoilerSubF f cs
    else c :: spoilerSubF f (d :: cs)

/-- Spoiler substitution on a character list. -/
def spoilerSub (l : List Char) : List Char := spoilerSubF l.length l

/-! ### Mention resolution in `_prepare_conversation_text`

`re.sub(r'<@!?(\d+)>', ...display_name or 'user'..., content)` and
`re.sub(r'<#(\d+)>', ...'#' + name or '#channel'..., content)`. -/

/-- Parse `\d+>` returning the numeric id and the rest. -/
def parseDigitsGt (l : List Char) : Option (Nat × List Char) :=
  let ds := l.takeWhile (fun c => c.isDigit)
  if ds.isEmpty then none
  else
    match l.drop ds.length with
    | '>' :: rest => some (digitsVal ds, rest)
    | _ => none

/-- Parse the tail of a user mention `@!?\d+>` (after the `<`). -/
def parseUserMention : List Char → Option (Nat × List Char)
  | '@' :: '!' :: rest => parseDigitsGt rest
  | '@' :: rest => parseDigitsGt rest
  | _ => none

/-- Parse the tail of a channel mention `#\d+>` (after the `<`). -/
def parseChanMention : List Char → Option (Nat × List Char)
  | '#' :: rest => parseDigitsGt rest
  | _ => none

/-- Fuel-indexed user-mention substitution scanner. -/
def userMentionSubF (g : Guild) : Nat → List Char → List Char
  | 0, l => l
  | _ + 1, [] => []
  | f + 1, c :: cs =>
    if c == '<' then
      match parseUserMention cs with
      | some (uid, rest) => ((g.members uid).getD "user").data ++ userMentionSubF g f rest
      | none => c :: userMentionSubF g f cs
    else c :: userMentionSubF g f cs

/-- User-mention substitution. -/
def userMentionSub (g : Guild) (l : List Char) : List Char :=
  userMentionSubF g l.length l

/-- Fuel-indexed channel-mention substitution scanner. -/
def chanMentionSubF (g : Guild) : Nat → List Char → List Char
  | 0, l => l
  | _ + 1, [] => []
  | f + 1, c :: cs =>
    if c == '<' then
      match parseChanMention cs with
      | some (cid, rest) =>
          '#' :: ((g.channels cid).getD "channel").data ++ chanMentionSubF g f rest
      | none => c :: chanMentionSubF g f cs
    else c :: chanMentionSubF g f cs

/-- Channel-mention substitution. -/
def chanMentionSub (g : Guild) (l : List Char) : List Char :=
  chanMentionSubF g l.length l

/-- Leading command-prefix character (`content.startswith('!')`). -/
def startsBang : List Char → Bool
  | '!' :: _ => true
  | _ => false

/-- Per-message line of `_prepare_conversation_text`: spoiler substitution,
mention resolution, then the under-10-characters / bot-command drop, and
finally the `"author: content"` line. -/
def prepareLine (g : Guild) (m : Message) : Option (List Char) :=
  let content := spoilerSub m.content.data
  let content := userMentionSub g content
  let content := chanMentionSub g content
  if (pyStrip content).length < 10 || startsBang content then none
  else some (m.author_display_name.data ++ ':' :: ' ' :: pyStrip content)

/-- `_prepare_conversation_text`: the surviving lines joined by newlines. -/
def prepare_conversation_text (g : Guild) (messages : List Message) : String :=
  String.mk (joinNl (messages.filterMap (prepareLine g)))

/-! ### Topic extraction (`_extract_topics`) -/

/-- Tail after a matched `http[s]?://\S+` URL, when the scan position starts
one (greedy nonempty run of non-whitespace after the scheme). -/
def urlTail (l : List Char) : Option (List Char) :=
  let ns := l.takeWhile (fun c => !pySpace c)
  if ns.isEmpty then none else some (l.drop ns.length)

/-- Attempt a URL match at the current position. -/
def urlStart : List Char → Option (List Char)
  | 'h' :: 't' :: 't' :: 'p' :: 's' :: ':' :: '/' :: '/' :: rest => urlTail rest
  | 'h' :: 't' :: 't' :: 'p' :: ':' :: '/' :: '/' :: rest => urlTail rest
  | _ => none

/-- Fuel-indexed scanner for `re.sub(r'http[s]?://\S+', '', ...)`. -/
def urlSubF : Nat → List Char → List Char
  | 0, l => l
  | _ + 1, [] => []
  | f + 1, c :: cs =>
    match urlStart (c :: cs) with
    | some rest => urlSubF f rest
    | none => c :: urlSubF f cs

/-- URL removal. -/
def urlSub (l : List Char) : List Char := urlSubF l.length l

/-- Parse the tail of `<@[!&]?\d+>` (after the `<`). -/
def parseTopicMention : List Char → Option (List Char)
  | '@' :: '!' :: rest => (parseDigitsGt rest).map Prod.snd
  | '@' :: '&' :: rest => (parseDigitsGt rest).map Prod.snd
  | '@' :: rest => (parseDigitsGt rest).map Prod.snd
  | _ => none

/-- Fuel-indexed scanner for `re.sub(r'<@[!&]?\d+>', '', ...)`. -/
def topicMentionSubF : Nat → List Char → List Char
  | 0, l => l
  | _ + 1, [] => []
  | f + 1, c :: cs =>
    if c == '<' then
      match parseTopicMention cs with
      | some rest => topicMentionSubF f rest
      | none => c :: topicMentionSubF f cs
    else c :: topicMentionSubF f cs

/-- Mention removal for topic extraction. -/
def topicMentionSub (l : List Char) : List Char := topicMentionSubF l.length l

/-- Python `str.split()` with no argument: whitespace-separated words. -/
def pyWords : List Char → List (List Char)
  | [] => []
  | c :: cs =>
    let rest := pyWords cs
    if pySpace c then rest
    else
      match cs with
      | [] => [[c]]
      | d :: _ =>
        if pySpace d then [c] :: rest
        else
          match rest with
          | [] => [[c]]
          | w :: ws => (c :: w) :: ws

/-- The stopword list of `_extract_topics`, verbatim (the Python source is a
set literal, so the duplicated `'has'` entry is harmless there too). -/
def commonWords : List String :=
  ["the", "and", "for", "are", "but", "not", "you", "all", "can", "had",
   "her", "was", "one", "our", "out", "day", "get", "has", "him", "his",
   "how", "its", "may", "new", "now", "old", "see", "two", "who", "boy",
   "did", "has", "let", "put", "say", "she", "too", "use"]

/-- Insertion into a Python-set modelled as an insertion-ordered
duplicate-free list. -/
def insertNew (acc : List String) (x : String) : List String :=
  if acc.contains x then acc else acc ++ [x]

/-- `_extract_topics`: strip URLs, mention tokens and non-word/non-space
characters, lower-case, split, and keep words longer than 3 characters
that are not stopwords. -/
def extract_topics (content : String) : List String :=
  let cleaned := urlSub content.data
  let cleaned := topicMentionSub cleaned
  let cleaned := cleaned.filter (fun c => isWordChar c || pySpace c)
  let words := pyWords (cleaned.map pyLowerChar)
  (words.filter (fun w => 3 < w.length && !(commonWords.contains (String.mk w)))).foldl
    (fun acc w => insertNew acc (String.mk w)) []

/-! ### Grouping (`_group_messages_by_context`) -/

/-- One conversation bucket: `{'messages': [...], 'participants': set(),
'topics': set()}`. -/
structure ConvData where
  messages : List Message
  participants : List String
  topics : List String
deriving DecidableEq

/-- One loop iteration body: append the message, add the author display
name, union the extracted topics. -/
def bucketInsert (cd : ConvData) (m : Message) : ConvData :=
  { messages := cd.messages ++ [m]
    participants := insertNew cd.participants m.author_display_name
    topics := (extract_topics m.content).foldl insertNew cd.topics }

/-- Insert a message into the bucket dict keyed by its channel name,
creating the bucket at the end (dict insertion order) if absent. -/
def updateBucket (m : Message) : List (String × ConvData) → List (String × ConvData)
  | [] => [(m.channel_name, bucketInsert ⟨[], [], []⟩ m)]
  | (c, cd) :: rest =>
    if c = m.channel_name then (c, bucketInsert cd m) :: rest
    else (c, cd) :: updateBucket m rest

/-- Timestamp comparison used by `messages.sort(key=lambda x: x.created_at)`. -/
def msgLE (a b : Message) : Prop := a.created_at ≤ b.created_at

instance : DecidableRel msgLE := fun a b => Nat.decLe a.created_at b.created_at

instance : IsTotal Message msgLE := ⟨fun a b => Nat.le_total a.created_at b.created_at⟩

instance : IsTrans Message msgLE := ⟨fun _ _ _ => Nat.le_trans⟩

/-- `_group_messages_by_context`.  The Python code sorts the caller's list
in place (`messages.sort(...)`) and then folds it into the channel dict;
the first component of the result is the state of the caller's list after
the call (Python's sort is stable, and a stable sort with respect to a
total preorder is unique, so `List.insertionSort` models it exactly), the
second component is the bucket dict. -/
def group_messages_by_context (messages : List Message) :
    List Message × List (String × ConvData) :=
  let sorted := messages.insertionSort msgLE
  (sorted, sorted.foldl (fun convs m => updateBucket m convs) [])

/-- Dict lookup in the bucket association list. -/
def findBucket (c : String) : List (String × ConvData) → Option ConvData
  | [] => none
  | (c', cd) :: rest => if c' = c then some cd else findBucket c rest

/-- Messages of the bucket keyed `c` (empty when absent). -/
def messagesOf (c : String) (convs : List (String × ConvData)) : List Message :=
  match findBucket c convs with
  | some cd => cd.messages
  | none => []

/-- All messages stored across the buckets, in dict order. -/
def bucketsMessages (convs : List (String × ConvData)) : List Message :=
  (convs.map (fun p => p.snd.messages)).flatten

/-- The caller's message list after `summarize_conversations` returns: the
only mutation the core performs is the in-place sort inside
`_group_messages_by_context` (reached exactly when the list is nonempty). -/
def summarize_conversations_messages_after (messages : List Message) : List Message :=
  if messages.isEmpty then messages else (group_messages_by_context messages).fst

/-! ### The strategy chain (`_generate_summary` and its tiers) -/

/-- Python exceptions that the embedding distinguishes: the
`UnboundLocalError` raised by `_simple_extractive_summary`, and an
arbitrary exception raised by an external strategy. -/
inductive PyErr where
  | unboundLocal
  | runtime
deriving DecidableEq

deriving instance DecidableEq for Except

/-- The `_summarize_with_openai` tier as an oracle: it receives the prepared
text and the custom prompt (both appear in the prompt it builds) and either
returns the completion or raises. -/
def OpenAIOracle : Type := String → Option String → Except PyErr String

/-- The `_summarize_with_transformers` tier as an oracle: it receives only
the prepared text. -/
def LocalOracle : Type := String → Except PyErr String

/-- `_simple_extractive_summary`.  For five or fewer lines it returns the
fixed sentence.  Otherwise the source computes `participants` and `topics`
and then runs

    if participant_count > 3:
        participant_text += f" and {participant_count - 3} others"
    ...
    summary = f"Conversation between {participant_text} ..."

but `participant_text` is never initialized, so whichever of the two lines
is reached first raises `UnboundLocalError`; the participant/topic
accumulation cannot affect the outcome and is elided here. -/
def simple_extractive_summary (text : String) : Except PyErr String :=
  let lines := splitLines text.data
  if lines.length ≤ 5 then .ok "Brief conversation with limited content."
  else .error .unboundLocal

/-- The tail of the strategy chain: the local tier if available (falling
through on its exceptions), then the extractive fallback. -/
def localThenExtractive (lc : Option LocalOracle) (text : String) : Except PyErr String :=
  match lc with
  | some f =>
    match f text with
    | .ok r => .ok r
    | .error _ => simple_extractive_summary text
  | none => simple_extractive_summary text

/-- `_generate_summary`: openai first when configured (exceptions fall
through), then the local tier, then the extractive fallback.  Only the
openai tier ever sees the custom prompt. -/
def generate_summary (oc : Option OpenAIOracle) (lc : Option LocalOracle)
    (text : String) (custom_prompt : Option String) : Except PyErr String :=
  match oc with
  | some f =>
    match f text custom_prompt with
    | .ok r => .ok r
    | .error _ => localThenExtractive lc text
  | none => localThenExtractive lc text

/-! ### Summary cleanup (`_clean_summary_text`) -/

/-- Python `str.replace`: replace every (leftmost, non-overlapping)
occurrence; fuel-indexed scanner. -/
def replaceAllF (pat repl : List Char) : Nat → List Char → List Char
  | 0, l => l
  | _ + 1, [] => []
  | f + 1, c :: cs =>
    if !pat.isEmpty && pat.isPrefixOf (c :: cs) then
      repl ++ replaceAllF pat repl f ((c :: cs).drop pat.length)
    else c :: replaceAllF pat repl f cs

/-- Replace every occurrence of `pat` by `repl`. -/
def replaceAll (pat repl l : List Char) : List Char := replaceAllF pat repl l.length l

/-- One iteration of the ALL-CAPS repair loop: if the upper-cased
participant name occurs and differs from the name, replace it back. -/
def capsFix (cleaned : List Char) (p : String) : List Char :=
  let caps := p.data.map pyUpperChar
  if containsSub cleaned caps && caps != p.data then replaceAll caps p.data cleaned
  else cleaned

/-- Lookahead of `(?!\*)`: the next character is another asterisk. -/
def lookStar : List Char → Bool
  | '*' :: _ => true
  | _ => false

/-- The `fix_bold` replacement of `_clean_summary_text`: a word matching a
participant case-insensitively becomes `**participant**`; any other match
is emitted unchanged (the matched text is the word plus the two
asterisks). -/
def boldFixRepl (participants : List String) (run : List Char) : List Char :=
  match participants.find? (fun p => pyLower p == String.mk (run.map pyLowerChar)) with
  | some p => ("**" ++ p ++ "**").data
  | none => run ++ ['*', '*']

/-- Fuel-indexed scanner for `re.sub(r'\b([A-Za-z0-9_]+)\*\*(?!\*)',
fix_bold, ...)`.  The boolean argument records whether the previous
character of the original text was a word character (the `\b` test). -/
def fixBoldF (participants : List String) : Nat → Bool → List Char → List Char
  | 0, _, l => l
  | _ + 1, _, [] => []
  | f + 1, prevW, c :: cs =>
    if !prevW && isWordChar c then
      let run := (c :: cs).takeWhile isWordChar
      match (c :: cs).drop run.length with
      | '*' :: '*' :: rest2 =>
        if lookStar rest2 then c :: fixBoldF participants f true cs
        else boldFixRepl participants run ++ fixBoldF participants f false rest2
      | _ => c :: fixBoldF participants f true cs
    else c :: fixBoldF participants f (isWordChar c) cs

/-- `_clean_summary_text`: ALL-CAPS participant repair, then the broken
bold-marker repair. -/
def clean_summary_text (summary : String) (participants : List String) : String :=
  let cleaned := participants.foldl capsFix summary.data
  String.mk (fixBoldF participants cleaned.length false cleaned)

/-! ### Username decoration (`_format_usernames_with_colors`)

The user/emoji table and the two cleanup character classes reproduce the
code-point sequences stored in the source file (see the header note about
its mojibake encoding). -/

/-- The `user_emojis` dict, in source order. -/
def emojiTable : List (String × String) :=
  [("TantalizingTangerine", "ðŸŠ"),
   ("annbland", "ðŸ„"),
   ("HelpfulKitten", "ðŸˆâ€â¬›"),
   ("Emma", "ðŸ©·"),
   ("Theris Valayrin", "ðŸ–¤"),
   ("doobiegirl", "ðŸ©µ"),
   ("Matt", "ðŸŸ¦"),
   ("liliesanddaisies", "ðŸŒ¹"),
   ("myxdvz", "ðŸ¨"),
   ("bee!", "ðŸ"),
   ("bluecupgreenspoon", "ðŸ¦‹")]

/-- The distinct characters of the bracket class shared by the two cleanup
patterns (the class literal lists the code points of all the table's
glyph sequences). -/
def classChars : List Char :=
  ['ð', 'Ÿ', 'Œ', '¹', '»', '¼', 'Š',
   '„', 'ˆ', 'â', '€', '¬', '›', '©',
   '·', '–', '¤', 'µ', '¦', '¨', '‹']

/-- Membership in the glyph character class. -/
def inClass (c : Char) : Bool := classChars.contains c

/-- Attempt, at a position starting with a class character, the match
`[class]+\s*\*\*([^*]+)\*\*`; returns the captured group and the rest. -/
def stripBoldTry (l : List Char) : Option (List Char × List Char) :=
  let run := l.takeWhile inClass
  let r1 := l.drop run.length
  let ws := r1.takeWhile pySpace
  match r1.drop ws.length with
  | '*' :: '*' :: r3 =>
    let cap := r3.takeWhile (fun c => c != '*')
    if cap.isEmpty then none
    else
      match r3.drop cap.length with
      | '*' :: '*' :: r4 => some (cap, r4)
      | _ => none
  | _ => none

/-- Fuel-indexed scanner for the first cleanup substitution
`re.sub(emoji_bold_pattern, r'\1', ...)`. -/
def emojiBoldStripF : Nat → List Char → List Char
  | 0, l => l
  | _ + 1, [] => []
  | f + 1, c :: cs =>
    if inClass c then
      match stripBoldTry (c :: cs) with
      | some (cap, rest) => cap ++ emojiBoldStripF f rest
      | none => c :: emojiBoldStripF f cs
    else c :: emojiBoldStripF f cs

/-- First cleanup substitution. -/
def emojiBoldStrip (l : List Char) : List Char := emojiBoldStripF l.length l

/-- The `[A-Za-z0-9_!]` class of the second cleanup pattern. -/
def isNamey (c : Char) : Bool := c.isAlphanum || c == '_' || c == '!'

/-- Attempt the match `[class]+\s+([A-Za-z0-9_!]+)`; returns the captured
group and the rest. -/
def stripPlainTry (l : List Char) : Option (List Char × List Char) :=
  let run := l.takeWhile inClass
  let r1 := l.drop run.length
  let ws := r1.takeWhile pySpace
  if ws.isEmpty then none
  else
    let r2 := r1.drop ws.length
    let cap := r2.takeWhile isNamey
    if cap.isEmpty then none else some (cap, r2.drop cap.length)

/-- Fuel-indexed scanner for the second cleanup substitution
`re.sub(emoji_plain_pattern, r'\1', ...)`. -/
def emojiPlainStripF : Nat → List Char → List Char
  | 0, l => l
  | _ + 1, [] => []
  | f + 1, c :: cs =>
    if inClass c then
      match stripPlainTry (c :: cs) with
      | some (cap, rest) => cap ++ emojiPlainStripF f rest
      | none => c :: emojiPlainStripF f cs
    else c :: emojiPlainStripF f cs

/-- Second cleanup substitution. -/
def emojiPlainStrip (l : List Char) : List Char := emojiPlainStripF l.length l

/-- Emoji lookup for a participant: exact key first, then the first table
entry matching case-insensitively or by substring containment in either
direction (dict iteration order is insertion order). -/
def findEmoji (participant : String) : Option String :=
  match emojiTable.find? (fun e => e.fst == participant) with
  | some e => some e.snd
  | none =>
    (emojiTable.find? (fun e =>
      pyLower e.fst == pyLower participant ||
      containsSub (pyLower participant).data (pyLower e.fst).data ||
      containsSub (pyLower e.fst).data (pyLower participant).data)).map Prod.snd

/-- First character is a word character (`false` at the end of the text). -/
def headW : List Char → Bool
  | [] => false
  | c :: _ => isWordChar c

/-- Last character is a word character. -/
def lastW (l : List Char) : Bool := headW l.reverse

/-- Fuel-indexed literal replacement guarded by `\b` on both sides (the
`re.sub(r'\b' + re.escape(participant) + r'\b', ...)` call).  A boundary
holds where word-membership changes, with positions outside the text
counting as non-word; the boolean argument is word-membership of the
previous original character. -/
def boundReplaceAllF (pat repl : List Char) : Nat → Bool → List Char → List Char
  | 0, _, l => l
  | _ + 1, _, [] => []
  | f + 1, prevW, c :: cs =>
    if !pat.isEmpty && pat.isPrefixOf (c :: cs) && (prevW != headW pat) &&
        (lastW pat != headW ((c :: cs).drop pat.length)) then
      repl ++ boundReplaceAllF pat repl f (lastW pat) ((c :: cs).drop pat.length)
    else c :: boundReplaceAllF pat repl f (isWordChar c) cs

/-- Boundary-guarded replacement of every occurrence. -/
def boundReplaceAll (pat repl l : List Char) : List Char :=
  boundReplaceAllF pat repl l.length false l

/-- One iteration of the participant loop of
`_format_usernames_with_colors`: skip already-formatted participants, look
up the emoji, then either rewrite every `**participant**` or every
word-bounded plain occurrence. -/
def formatStep (st : List Char × List String) (participant : String) :
    List Char × List String :=
  if st.snd.contains participant then st
  else
    match findEmoji participant with
    | none => st
    | some emoji =>
      let bpat := ("**" ++ participant ++ "**").data
      let repl := (emoji ++ " **" ++ participant ++ "**").data
      if containsSub st.fst bpat then
        (replaceAll bpat repl st.fst, st.snd ++ [participant])
      else if containsSub st.fst participant.data then
        (boundReplaceAll participant.data repl st.fst, st.snd ++ [participant])
      else st

/-- `_format_usernames_with_colors`: the two cleanup substitutions followed
by the participant loop. -/
def format_usernames_with_colors (text : String) (participants : List String) : String :=
  let t := emojiBoldStrip text.data
  let t := emojiPlainStrip t
  String.mk (participants.foldl formatStep (t, [])).fst

/-! ### Per-channel summarization and combination -/

/-- The pencil glyph sequence of the channel-block header line. -/
def memoGlyph : String := "ðŸ“"

/-- The replacement-character sequence starting the message-count line. -/
def repGlyph : String := "ï¿½"

/-- The speech-balloon glyph sequence of the summary heading. -/
def speechGlyph : String := "ðŸ’¬"

/-- The horizontal bar closing a channel block: forty repetitions of the
two-character sequence the box-drawing glyph decayed to. -/
def dashBar : String := String.mk ((List.replicate 40 ['â', '”']).flatten)

/-- The `final_summary` f-string of `_summarize_channel_conversations`
(with its trailing `.strip()`). -/
def channelBlock (channel_name : String) (n : Nat) (formatted_summary : String) : String :=
  String.mk (pyStrip ("**" ++ memoGlyph ++ " #" ++ channel_name ++ "**\n" ++ repGlyph ++
    " **Messages:** " ++ toString n ++ "\n\n**" ++ speechGlyph ++ " Summary:**\n" ++
    formatted_summary ++ "\n\n" ++ dashBar).data)

/-- `_summarize_channel_conversations`: the two precondition gates, the
strategy chain, the empty-summary check, cleanup, decoration and the
channel block.  `.ok none` is the Python `return None`; `.error` is an
exception propagating out (only the strategy chain can raise). -/
def summarize_channel_conversations (g : Guild) (oc : Option OpenAIOracle)
    (lc : Option LocalOracle) (channel_name : String) (conv_data : ConvData)
    (custom_prompt : Option String) : Except PyErr (Option String) :=
  let messages := conv_data.messages
  if messages.length < 3 then .ok none
  else
    let conversation_text := prepare_conversation_text g messages
    if conversation_text.length < 100 then .ok none
    else
      match generate_summary oc lc conversation_text custom_prompt with
      | .error e => .error e
      | .ok summary =>
        if summary = "" then .ok none
        else
          let participants := conv_data.participants
          let cleaned_summary := clean_summary_text summary participants
          let formatted_summary := format_usernames_with_colors cleaned_summary participants
          .ok (some (channelBlock channel_name messages.length formatted_summary))

/-- The bar-chart glyph sequence of the digest header. -/
def chartGlyph : String := "ðŸ“Š"

/-- `_combine_summaries` of `src/summarizer.py`: a single summary is
returned unwrapped; otherwise a channel-count header plus the blocks
joined by blank lines.  No footer is appended. -/
def combine_summaries (summaries : List String) : String :=
  if summaries.length = 1 then summaries.headD ""
  else
    let header := "# " ++ chartGlyph ++ " Daily Activity Summary\n*" ++
      toString summaries.length ++ " channels had significant activity*\n\n"
    header ++ String.intercalate "\n\n" summaries

/-- `_combine_summaries` of `summarizer_lite.py`: a single summary is
returned unwrapped; otherwise a channel-count header, the blocks joined by
single newlines, and a timestamp footer (the formatted
`datetime.utcnow()` string is the `timestamp` parameter). -/
def combine_summaries_lite (timestamp : String) (summaries : List String) : String :=
  if summaries.length = 1 then summaries.headD ""
  else
    let header := "## Daily Activity Summary\n*" ++ toString summaries.length ++
      " channels had significant activity*\n\n"
    let combined := header ++ String.intercalate "\n" summaries
    let footer := "\n---\n*Lightweight summary generated at " ++ timestamp ++ "*"
    combined ++ footer

/-- `summarize_conversations`: the empty-input sentinel, grouping, the
per-channel loop whose `try/except` turns any channel exception into a
skip, the no-survivors sentinel, and the combination step. -/
def summarize_conversations (g : Guild) (oc : Option OpenAIOracle)
    (lc : Option LocalOracle) (messages : List Message)
    (custom_prompt : Option String) : Except PyErr String :=
  if messages.isEmpty then .ok "No conversations found for today."
  else
    let conversations := (group_messages_by_context messages).snd
    let summaries := conversations.foldl
      (fun acc p =>
        match summarize_channel_conversations g oc lc p.fst p.snd custom_prompt with
        | .error _ => acc
        | .ok none => acc
        | .ok (some s) => acc ++ [s])
      ([] : List String)
    if summaries.isEmpty then .ok "No significant conversations found for today."
    else .ok (combine_summaries summaries)

/-- Whether an `Except` result is a normal return. -/
def isOkE (e : Except PyErr String) : Bool :=
  match e with
  | .ok _ => true
  | .error _ => false

/-- Whether a per-channel result is a produced summary (`.ok (some _)`). -/
def isOkSome (e : Except PyErr (Option String)) : Bool :=
  match e with
  | .ok (some _) => true
  | _ => false

/-! ### Spoiler templates

For the spoiler-noninterference statement, inputs are described by a
template: plain segments (free of pipe characters) alternating with
spoiler bodies (nonempty, free of pipes and newlines).  Rendering a
template interleaves the segments with `||`-delimited bodies; every such
rendered span is exactly one match of the spoiler pattern. -/

/-- A plain template segment: no pipe characters. -/
def okPlain (s : String) : Prop := ∀ c ∈ s.data, c ≠ '|'

instance (s : String) : Decidable (okPlain s) := by
  unfold okPlain; infer_instance

/-- A spoiler body: nonempty, no pipes, no newlines. -/
def okBody (s : String) : Prop := s.data ≠ [] ∧ ∀ c ∈ s.data, c ≠ '|' ∧ c ≠ '\n'

instance (s : String) : Decidable (okBody s) := by
  unfold okBody; infer_instance

/-- Render a template: `plains` must have one more element than `bodies`. -/
def renderSpoilers (plains bodies : List String) : List Char :=
  match bodies, plains with
  | [], [p] => p.data
  | b :: bs, p :: ps => p.data ++ '|' :: '|' :: b.data ++ '|' :: '|' :: renderSpoilers ps bs
  | _, _ => []

/-- The same template with every spoiler span replaced by the placeholder. -/
def renderClean : List String → List Char
  | [] => []
  | [p] => p.data
  | p :: ps => p.data ++ spoilerRepl ++ renderClean ps

/-- Two messages that differ only in the contents of spoiler-marked spans:
same author, contents rendered from a common template with possibly
different spoiler bodies. -/
def spoilerVariant (m1 m2 : Message) : Prop :=
  m1.author_display_name = m2.author_display_name ∧
  ∃ plains bodies1 bodies2 : List String,
    plains.length = bodies1.length + 1 ∧ plains.length = bodies2.length + 1 ∧
    (∀ p ∈ plains, okPlain p) ∧ (∀ b ∈ bodies1, okBody b) ∧ (∀ b ∈ bodies2, okBody b) ∧
    m1.content.data = renderSpoilers plains bodies1 ∧
    m2.content.data = renderSpoilers plains bodies2

/-! ### Concrete inputs used by witnesses and counterexamples -/

/-- A guild with no resolvable members or channels. -/
def gEx : Guild := ⟨fun _ => none, fun _ => none⟩

/-- A prepared conversation text with six lines: enough lines to get past
the `len(lines) <= 5` check of the extractive fallback. -/
def sixLineText : String :=
  "alice: good morning everyone\nbob: hello alice how are you\nalice: doing well thanks friend\nbob: glad to hear it today\ncara: hi everyone what happened\nalice: we were just chatting"

/-- Six long-enough messages in one channel: the bucket passes both gates
and its prepared text has six lines. -/
def exC2msgs : List Message :=
  [⟨"alice", "good morning everyone friends", "general", 1⟩,
   ⟨"bob", "hello alice how are you", "general", 2⟩,
   ⟨"alice", "doing well thanks friend", "general", 3⟩,
   ⟨"bob", "glad to hear it today", "general", 4⟩,
   ⟨"cara", "hi everyone what happened", "general", 5⟩,
   ⟨"alice", "we were just chatting", "general", 6⟩]

/-- Earlier message for the grouping witness. -/
def exC3m1 : Message := ⟨"alice", "hi all", "general", 5⟩

/-- Later message for the grouping witness. -/
def exC3m2 : Message := ⟨"bob", "ok yes", "general", 9⟩

/-- Grouping witness input, deliberately out of timestamp order. -/
def exC3msgs : List Message := [exC3m2, exC3m1]

/-- The bucket the grouping produces for channel `general`. -/
def exC3bucket : ConvData := ⟨[exC3m1, exC3m2], ["alice", "bob"], []⟩

/-- Early message for the mutation counterexample. -/
def exC5early : Message := ⟨"alice", "hello there", "general", 1⟩

/-- Late message for the mutation counterexample. -/
def exC5late : Message := ⟨"bob", "hello again", "general", 2⟩

/-- A one-character message (dropped by the under-10-characters filter). -/
def exC6msg : Message := ⟨"u", "x", "general", 0⟩

/-- A bucket of three identical one-character messages. -/
def exC6bucket : ConvData := ⟨[exC6msg, exC6msg, exC6msg], ["u"], []⟩

/-- An openai oracle that always succeeds (for gate witnesses). -/
def ocHappy : Option OpenAIOracle := some (fun _ _ => Except.ok "a generated summary")

/-- A local oracle that always succeeds (for gate witnesses). -/
def lcHappy : Option LocalOracle := some (fun _ => Except.ok "a local summary")

/-- Two messages in one channel: below the 3-message gate. -/
def exC7msgs : List Message :=
  [⟨"alice", "hello there friend", "general", 1⟩,
   ⟨"bob", "hi there alice ok", "general", 2⟩]

/-- First spoiler-variant message: same template as `exC9m2`, different
spoiler body. -/
def exC9m1 : Message :=
  ⟨"alice", "my guess is ||it was the butler|| what do you think", "general", 1⟩

/-- Second spoiler-variant message. -/
def exC9m2 : Message :=
  ⟨"alice", "my guess is ||no way jose|| what do you think", "general", 1⟩

/-- An openai oracle whose every call raises. -/
def ocFail : Option OpenAIOracle := some (fun _ _ => Except.error PyErr.runtime)

/-- The source-order glyph sequence for `bee!`. -/
def beeGlyph : String := "ðŸ"

/-- The source-order glyph sequence for `Emma`. -/
def pinkGlyph : String := "ðŸ©·"

/-! ## Helper lemmas about the spoiler scanner -/

theorem closeSplit_rest_le :
    ∀ l b r, closeSplit l = some (b, r) → r.length ≤ l.length := by
  intro l
  induction l with
  | nil => intro b r h; simp [closeSplit] at h
  | cons c cs ih =>
    intro b r h
    simp only [closeSplit] at h
    split at h
    · exact absurd h (by simp)
    · split at h
      · obtain ⟨-, hr⟩ := Prod.mk.injEq .. ▸ Option.some.injEq .. ▸ h
        subst hr
        calc (cs.drop 2).length ≤ cs.length := by simp [List.length_drop]
          _ ≤ (c :: cs).length := by simp
      · split at h
        · next body rest heq =>
          obtain ⟨-, hr⟩ := Prod.mk.injEq .. ▸ Option.some.injEq .. ▸ h
          subst hr
          calc rest.length ≤ cs.length := ih body rest heq
            _ ≤ (c :: cs).length := by simp
        · exact absurd h (by simp)

theorem twoBars_cons_ne (y : Char) (l : List Char) (h : y ≠ '|') :
    twoBars (y :: l) = false := by
  cases l <;> simp [twoBars, h]

theorem spoilerSubF_fuelIrrel :
    ∀ f₁ f₂ l, l.length ≤ f₁ → l.length ≤ f₂ → spoilerSubF f₁ l = spoilerSubF f₂ l := by
  intro f₁
  induction f₁ with
  | zero =>
    intro f₂ l h1 _
    have : l = [] := List.eq_nil_of_length_eq_zero (Nat.le_zero.mp h1)
    subst this
    cases f₂ <;> rfl
  | succ f ih =>
    intro f₂ l h1 h2
    match l, h1, h2 with
    | [], _, _ => cases f₂ <;> rfl
    | [c], _, h2 =>
      match f₂, h2 with
      | f2 + 1, _ => rfl
    | c :: d :: cs, h1, h2 =>
      match f₂, h2 with
      | f2 + 1, h2 =>
        have hcs : cs.length + 2 ≤ f + 1 := by simpa using h1
        have hcs2 : cs.length + 2 ≤ f2 + 1 := by simpa using h2
        simp only [spoilerSubF]
        split
        · split
          · next body rest hcl =>
            have hr := closeSplit_rest_le cs body rest hcl
            rw [ih f2 rest (by omega) (by omega)]
          · rw [ih f2 cs (by omega) (by omega)]
        · rw [ih f2 (d :: cs) (by simp only [List.length_cons]; omega)
            (by simp only [List.length_cons]; omega)]

theorem spoilerSub_cons_ne (c : Char) (cs : List Char) (h : c ≠ '|') :
    spoilerSub (c :: cs) = c :: spoilerSub cs := by
  unfold spoilerSub
  cases cs with
  | nil => rfl
  | cons d cs =>
    show spoilerSubF (cs.length + 1 + 1) (c :: d :: cs) = _
    simp only [spoilerSubF]
    have hb : (c == '|' && d == '|') = false := by simp [h]
    simp only [hb, Bool.false_eq_true, if_false, List.length_cons]

theorem spoilerSub_open (cs b rest : List Char) (h : closeSplit cs = some (b, rest)) :
    spoilerSub ('|' :: '|' :: cs) = spoilerRepl ++ spoilerSub rest := by
  unfold spoilerSub
  show spoilerSubF (cs.length + 1 + 1) ('|' :: '|' :: cs) = _
  simp only [spoilerSubF, h]
  have hr : rest.length ≤ cs.length := closeSplit_rest_le cs b rest h
  rw [spoilerSubF_fuelIrrel (cs.length + 1) rest.length rest (by omega) (by omega)]
  simp

theorem spoilerSub_append_noPipe (p rest : List Char) (hp : ∀ c ∈ p, c ≠ '|') :
    spoilerSub (p ++ rest) = p ++ spoilerSub rest := by
  induction p with
  | nil => simp
  | cons c p ih =>
    rw [List.cons_append, spoilerSub_cons_ne c (p ++ rest) (hp c (by simp)),
      ih (fun x hx => hp x (by simp [hx])), List.cons_append]

theorem closeSplit_render (b rest : List Char) (hne : b ≠ [])
    (hb : ∀ c ∈ b, c ≠ '|' ∧ c ≠ '\n') :
    closeSplit (b ++ '|' :: '|' :: rest) = some (b, rest) := by
  induction b with
  | nil => exact absurd rfl hne
  | cons x b ih =>
    cases b with
    | nil =>
      have hx := hb x (by simp)
      simp [closeSplit, twoBars, hx.2]
    | cons y b2 =>
      have hx := hb x (by simp)
      have hy := hb y (by simp)
      have hrec : closeSplit ((y :: b2) ++ '|' :: '|' :: rest) = some (y :: b2, rest) :=
        ih (by simp) (fun c hc => hb c (by simp at hc ⊢; tauto))
      rw [show (y :: b2) ++ '|' :: '|' :: rest = y :: (b2 ++ '|' :: '|' :: rest) from rfl] at hrec
      have h1 : (x == '\n') = false := by simp [hx.2]
      have h2 : twoBars (y :: (b2 ++ '|' :: '|' :: rest)) = false :=
        twoBars_cons_ne y _ hy.1
      show closeSplit (x :: (y :: (b2 ++ '|' :: '|' :: rest))) = some (x :: y :: b2, rest)
      rw [closeSplit]
      simp only [h1, h2, Bool.false_eq_true, if_false, hrec]

theorem spoilerSub_render :
    ∀ (bodies plains : List String), plains.length = bodies.length + 1 →
      (∀ p ∈ plains, okPlain p) → (∀ b ∈ bodies, okBody b) →
      spoilerSub (renderSpoilers plains bodies) = renderClean plains := by
  intro bodies
  induction bodies with
  | nil =>
    intro plains hlen hp _
    match plains, hlen with
    | [p], _ =>
      show spoilerSub (renderSpoilers [p] []) = renderClean [p]
      have h1 : renderSpoilers [p] [] = p.data := rfl
      have h2 : renderClean [p] = p.data := rfl
      rw [h1, h2]
      have h3 := spoilerSub_append_noPipe p.data [] (hp p (by simp))
      have h4 : spoilerSub ([] : List Char) = [] := rfl
      simpa [h4] using h3
  | cons b bs ih =>
    intro plains hlen hp hb
    match plains, hlen with
    | p :: ps, hlen =>
      have hps : ps.length = bs.length + 1 := by simpa using hlen
      match ps, hps with
      | q :: ps2, hps =>
        have hrender : renderSpoilers (p :: q :: ps2) (b :: bs) =
            p.data ++ '|' :: '|' :: (b.data ++ '|' :: '|' :: renderSpoilers (q :: ps2) bs) := by
          rw [renderSpoilers]; simp
        have hokb := hb b (by simp)
        rw [hrender,
          spoilerSub_append_noPipe p.data _ (hp p (by simp)),
          spoilerSub_open _ b.data (renderSpoilers (q :: ps2) bs)
            (closeSplit_render b.data _ hokb.1 hokb.2),
          ih (q :: ps2) hps (fun x hx => hp x (by simp at hx ⊢; tauto))
            (fun x hx => hb x (by simp [hx]))]
        show p.data ++ (spoilerRepl ++ renderClean (q :: ps2)) = renderClean (p :: q :: ps2)
        have hclean : renderClean (p :: q :: ps2) = p.data ++ spoilerRepl ++ renderClean (q :: ps2) := rfl
        rw [hclean, List.append_assoc]

/-! ## Helper lemmas about the grouping fold -/

theorem messagesOf_updateBucket (m : Message) (c : String) :
    ∀ convs, messagesOf c (updateBucket m convs) =
      messagesOf c convs ++ (if m.channel_name = c then [m] else []) := by
  intro convs
  induction convs with
  | nil =>
    show messagesOf c [(m.channel_name, bucketInsert ⟨[], [], []⟩ m)] = _
    unfold messagesOf findBucket
    by_cases h : m.channel_name = c
    · simp [h, bucketInsert]
    · simp [h, findBucket]
  | cons hd tl ih =>
    obtain ⟨c1, cd⟩ := hd
    show messagesOf c (if c1 = m.channel_name then (c1, bucketInsert cd m) :: tl
        else (c1, cd) :: updateBucket m tl) = _
    by_cases h1 : c1 = m.channel_name
    · rw [if_pos h1]
      by_cases h2 : c1 = c
      · have hc : m.channel_name = c := h1 ▸ h2
        simp [messagesOf, findBucket, h2, hc, bucketInsert]
      · have hc : ¬(m.channel_name = c) := fun hcc => h2 (h1.trans hcc)
        simp [messagesOf, findBucket, h2, hc]
    · rw [if_neg h1]
      by_cases h2 : c1 = c
      · have hc : ¬(m.channel_name = c) := fun hcc => h1 (h2.trans hcc.symm)
        simp [messagesOf, findBucket, h2, hc]
      · have hl : messagesOf c ((c1, cd) :: updateBucket m tl) = messagesOf c (updateBucket m tl) := by
          simp [messagesOf, findBucket, h2]
        have hr : messagesOf c ((c1, cd) :: tl) = messagesOf c tl := by
          simp [messagesOf, findBucket, h2]
        rw [hl, hr, ih]

theorem messagesOf_foldl :
    ∀ (l : List Message) (acc : List (String × ConvData)) (c : String),
      messagesOf c (l.foldl (fun convs m => updateBucket m convs) acc) =
        messagesOf c acc ++ l.filter (fun m => m.channel_name == c) := by
  intro l
  induction l with
  | nil => simp
  | cons m l ih =>
    intro acc c
    show messagesOf c (l.foldl _ (updateBucket m acc)) = _
    rw [ih (updateBucket m acc) c, messagesOf_updateBucket m c acc]
    by_cases h : m.channel_name = c
    · simp [List.filter_cons, h]
    · simp [List.filter_cons, h]

theorem bucketsMessages_updateBucket (m : Message) :
    ∀ convs, bucketsMessages (updateBucket m convs) ~ bucketsMessages convs ++ [m] := by
  intro convs
  induction convs with
  | nil => simp [updateBucket, bucketsMessages, bucketInsert]
  | cons hd tl ih =>
    obtain ⟨c1, cd⟩ := hd
    show bucketsMessages (if c1 = m.channel_name then (c1, bucketInsert cd m) :: tl
        else (c1, cd) :: updateBucket m tl) ~ _
    by_cases h : c1 = m.channel_name
    · rw [if_pos h]
      show (bucketInsert cd m).messages ++ bucketsMessages tl ~
        (cd.messages ++ bucketsMessages tl) ++ [m]
      have h1 : (bucketInsert cd m).messages = cd.messages ++ [m] := rfl
      rw [h1, List.append_assoc, List.append_assoc]
      exact Perm.append_left cd.messages (List.perm_append_comm)
    · rw [if_neg h]
      show cd.messages ++ bucketsMessages (updateBucket m tl) ~
        (cd.messages ++ bucketsMessages tl) ++ [m]
      calc cd.messages ++ bucketsMessages (updateBucket m tl)
          ~ cd.messages ++ (bucketsMessages tl ++ [m]) := Perm.append_left cd.messages ih
        _ = (cd.messages ++ bucketsMessages tl) ++ [m] := (List.append_assoc ..).symm

theorem bucketsMessages_foldl :
    ∀ (l : List Message) (acc : List (String × ConvData)),
      bucketsMessages (l.foldl (fun convs m => updateBucket m convs) acc) ~
        bucketsMessages acc ++ l := by
  intro l
  induction l with
  | nil => simp
  | cons m l ih =>
    intro acc
    calc bucketsMessages (l.foldl _ (updateBucket m acc))
        ~ bucketsMessages (updateBucket m acc) ++ l := ih (updateBucket m acc)
      _ ~ (bucketsMessages acc ++ [m]) ++ l :=
          Perm.append_right l (bucketsMessages_updateBucket m acc)
      _ = bucketsMessages acc ++ (m :: l) := by simp

/-! ## Helper lemmas about the pipeline -/

theorem channel_gate_none (g : Guild) (oc : Option OpenAIOracle) (lc : Option LocalOracle)
    (name : String) (cd : ConvData) (p : Option String)
    (h : cd.messages.length < 3 ∨ (prepare_conversation_text g cd.messages).length < 100) :
    summarize_channel_conversations g oc lc name cd p = .ok none := by
  unfold summarize_channel_conversations
  rcases h with h | h
  · rw [if_pos h]
  · by_cases h3 : cd.messages.length < 3
    · rw [if_pos h3]
    · rw [if_neg h3, if_pos h]

theorem summaries_foldl_nil (g : Guild) (oc : Option OpenAIOracle) (lc : Option LocalOracle)
    (prompt : Option String) :
    ∀ (l : List (String × ConvData)) (acc : List String),
      (∀ e ∈ l, isOkSome (summarize_channel_conversations g oc lc e.fst e.snd prompt) = false) →
      l.foldl
        (fun acc p =>
          match summarize_channel_conversations g oc lc p.fst p.snd prompt with
          | .error _ => acc
          | .ok none => acc
          | .ok (some s) => acc ++ [s])
        acc = acc := by
  intro l
  induction l with
  | nil => intro acc _; rfl
  | cons e l ih =>
    intro acc hall
    have he := hall e (by simp)
    rw [List.foldl_cons]
    cases hf : summarize_channel_conversations g oc lc e.fst e.snd prompt with
    | error err =>
      simp only [hf]
      exact ih acc (fun x hx => hall x (by simp [hx]))
    | ok val =>
      cases val with
      | none =>
        simp only [hf]
        exact ih acc (fun x hx => hall x (by simp [hx]))
      | some s =>
        rw [hf] at he
        simp [isOkSome] at he

theorem pairwise_msgLE_of_const (t : Nat) :
    ∀ l : List Message, (∀ x ∈ l, x.created_at = t) → l.Pairwise msgLE := by
  intro l
  induction l with
  | nil => intro _; exact List.Pairwise.nil
  | cons x l ih =>
    intro h
    refine List.Pairwise.cons (fun y hy => ?_) (ih fun y hy => h y (by simp [hy]))
    unfold msgLE
    rw [h x (by simp), h y (by simp [hy])]

/-! ## The claims -/

/-- C1: the spec asserts that the extractive fallback, on any conversation
text with at least six lines, returns a non-empty string and never raises,
and that consequently the strategy chain always returns some string once
generation is attempted.  The code contradicts this: `participant_text` is
read (and `+=`-appended) in `_simple_extractive_summary` without ever being
initialized, so every call whose text has six or more lines raises
`UnboundLocalError`, and the strategy chain with no remote and no local
client propagates that exception instead of returning a string.  The first
two conjuncts evaluate the code at a six-line text; the last shows the
five-or-fewer-lines path still returns its fixed sentence, isolating the
missing-initializer slip as the only failure. -/
theorem extractive_fallback_raises :
    simple_extractive_summary sixLineText = .error .unboundLocal ∧
    generate_summary none none sixLineText none = .error .unboundLocal ∧
    simple_extractive_summary "a: hi\nb: yo" = .ok "Brief conversation with limited content." := by
  decide

/-- C6: a bucket with fewer than 3 messages, or whose prepared conversation
text is under 100 characters after cleaning, yields `none`; the strategy
oracles are universally quantified, so no generation strategy can influence
(or be reached on) this path. -/
theorem channel_gates_yield_none (g : Guild) (oc : Option OpenAIOracle)
    (lc : Option LocalOracle) (channel_name : String) (conv_data : ConvData)
    (custom_prompt : Option String)
    (h : conv_data.messages.length < 3 ∨
      (prepare_conversation_text g conv_data.messages).length < 100) :
    summarize_channel_conversations g oc lc channel_name conv_data custom_prompt = .ok none :=
  channel_gate_none g oc lc channel_name conv_data custom_prompt h

/-- Witness for C6: a bucket of three identical one-character messages is
dropped entirely by the under-10-characters filter, so its prepared text is
empty and the length gate fires even with strategies that would succeed. -/
theorem channel_gates_yield_none_witness :
    (exC6bucket.messages.length < 3 ∨
      (prepare_conversation_text gEx exC6bucket.messages).length < 100) ∧
    summarize_channel_conversations gEx ocHappy lcHappy "general" exC6bucket none = .ok none :=
  ⟨by decide, channel_gates_yield_none gEx ocHappy lcHappy "general" exC6bucket none (by decide)⟩

/-- C7: the empty message list yields exactly the "No conversations found
for today." sentinel for every strategy configuration (no strategy is
consulted), and a nonempty input all of whose buckets fail the precondition
gates yields the distinct "No significant conversations found for today."
sentinel. -/
theorem insufficiency_sentinels (g : Guild) (oc : Option OpenAIOracle)
    (lc : Option LocalOracle) (custom_prompt : Option String) :
    summarize_conversations g oc lc [] custom_prompt =
      .ok "No conversations found for today." ∧
    (∀ messages : List Message, messages ≠ [] →
      (∀ e ∈ (group_messages_by_context messages).snd,
        e.snd.messages.length < 3 ∨
          (prepare_conversation_text g e.snd.messages).length < 100) →
      summarize_conversations g oc lc messages custom_prompt =
        .ok "No significant conversations found for today.") := by
  constructor
  · rfl
  · intro messages hne hgate
    unfold summarize_conversations
    rw [if_neg (by simp [hne])]
    dsimp only
    rw [summaries_foldl_nil g oc lc custom_prompt _ []
      (fun e he => by rw [channel_gate_none g oc lc e.fst e.snd custom_prompt (hgate e he)]; rfl)]
    rfl

/-- Witness for C7: the empty list, and a two-message channel (below the
3-message gate), with strategies that would happily return summaries. -/
theorem insufficiency_sentinels_witness :
    summarize_conversations gEx ocHappy lcHappy [] (some "focus") =
      .ok "No conversations found for today." ∧
    exC7msgs ≠ [] ∧
    (∀ e ∈ (group_messages_by_context exC7msgs).snd,
      e.snd.messages.length < 3 ∨
        (prepare_conversation_text gEx e.snd.messages).length < 100) ∧
    summarize_conversations gEx ocHappy lcHappy exC7msgs (some "focus") =
      .ok "No significant conversations found for today." := by
  have h := insufficiency_sentinels gEx ocHappy lcHappy (some "focus")
  exact ⟨h.1, by decide, by decide, h.2 exC7msgs (by decide) (by decide)⟩

/-- C2: `summarize_conversations` returns a string for every input and
every behaviour of the strategy tiers (the oracles may raise arbitrarily):
the per-channel `try/except` confines failures.  Additionally, when no
channel call produces a summary — because it raised or returned `none` —
every channel is skipped and the no-significant-conversations sentinel is
returned, which is how a failing channel is dropped rather than fatal. -/
theorem summarize_conversations_total (g : Guild) (oc : Option OpenAIOracle)
    (lc : Option LocalOracle) (messages : List Message) (custom_prompt : Option String) :
    isOkE (summarize_conversations g oc lc messages custom_prompt) = true ∧
    (messages ≠ [] →
      (∀ e ∈ (group_messages_by_context messages).snd,
        isOkSome (summarize_channel_conversations g oc lc e.fst e.snd custom_prompt) = false) →
      summarize_conversations g oc lc messages custom_prompt =
        .ok "No significant conversations found for today.") := by
  constructor
  · unfold summarize_conversations
    split
    · rfl
    · dsimp only
      split
      · rfl
      · rfl
  · intro hne hall
    unfold summarize_conversations
    rw [if_neg (by simp [hne])]
    dsimp only
    rw [summaries_foldl_nil g oc lc custom_prompt _ [] hall]
    rfl

set_option maxRecDepth 20000 in
/-- Witness for C2: six messages in one channel whose prepared text has six
lines, with no remote and no local strategy: the extractive fallback raises
(see C1), the channel is skipped, and the call still returns a string. -/
theorem summarize_conversations_total_witness :
    isOkE (summarize_conversations gEx none none exC2msgs none) = true ∧
    exC2msgs ≠ [] ∧
    (∀ e ∈ (group_messages_by_context exC2msgs).snd,
      isOkSome (summarize_channel_conversations gEx none none e.fst e.snd none) = false) ∧
    summarize_conversations gEx none none exC2msgs none =
      .ok "No significant conversations found for today." := by
  have h := summarize_conversations_total gEx none none exC2msgs none
  refine ⟨h.1, by decide, ?_, ?_⟩
  · decide
  · exact h.2 (by decide) (by decide)

/-- C3: grouping sorts each bucket's messages ascending by timestamp,
every message sits in the bucket keyed by its own channel name, the
per-timestamp slices of a bucket are subsequences of the original input
(stability: ties keep their original relative order), and the multiset of
all bucket messages is exactly the input (no drops, no duplicates). -/
theorem group_messages_partition_sorted (msgs : List Message) :
    (∀ c b, findBucket c (group_messages_by_context msgs).snd = some b →
      b.messages.Pairwise msgLE ∧
      (∀ m ∈ b.messages, m.channel_name = c) ∧
      (∀ t : Nat, b.messages.filter (fun m => m.created_at == t) <+ msgs)) ∧
    bucketsMessages (group_messages_by_context msgs).snd ~ msgs := by
  have hsorted : List.Sorted msgLE (msgs.insertionSort msgLE) :=
    List.sorted_insertionSort msgLE msgs
  have hperm : msgs.insertionSort msgLE ~ msgs := List.perm_insertionSort msgLE msgs
  have hchar : ∀ c, messagesOf c (group_messages_by_context msgs).snd =
      (msgs.insertionSort msgLE).filter (fun m => m.channel_name == c) := by
    intro c
    show messagesOf c
      ((msgs.insertionSort msgLE).foldl (fun convs m => updateBucket m convs) []) = _
    rw [messagesOf_foldl]
    simp [messagesOf, findBucket]
  constructor
  · intro c b hfb
    have hbm : b.messages =
        (msgs.insertionSort msgLE).filter (fun m => m.channel_name == c) := by
      have hx := hchar c
      unfold messagesOf at hx
      rw [hfb] at hx
      exact hx
    refine ⟨?_, ?_, ?_⟩
    · rw [hbm]
      exact hsorted.sublist (List.filter_sublist _)
    · intro m hm
      rw [hbm] at hm
      have := (List.mem_filter.mp hm).2
      simpa using this
    · intro t
      rw [hbm, List.filter_filter]
      have hQmem : ∀ x ∈ msgs.filter
          (fun m => (m.created_at == t) && (m.channel_name == c)), x.created_at = t := by
        intro x hx
        have := (List.mem_filter.mp hx).2
        simp at this
        exact this.1
      have hFpair : (msgs.filter
          (fun m => (m.created_at == t) && (m.channel_name == c))).Pairwise msgLE :=
        pairwise_msgLE_of_const t _ hQmem
      have h1 : msgs.filter (fun m => (m.created_at == t) && (m.channel_name == c)) <+
          msgs.insertionSort msgLE :=
        List.sublist_insertionSort hFpair (List.filter_sublist msgs)
      have h2 : (msgs.filter (fun m => (m.created_at == t) && (m.channel_name == c))).filter
          (fun m => (m.created_at == t) && (m.channel_name == c)) =
          msgs.filter (fun m => (m.created_at == t) && (m.channel_name == c)) :=
        List.filter_eq_self.mpr (fun a ha => (List.mem_filter.mp ha).2)
      have h3 : msgs.filter (fun m => (m.created_at == t) && (m.channel_name == c)) <+
          (msgs.insertionSort msgLE).filter
            (fun m => (m.created_at == t) && (m.channel_name == c)) := by
        rw [← h2]
        exact h1.filter _
      have h4 : (msgs.insertionSort msgLE).filter
          (fun m => (m.created_at == t) && (m.channel_name == c)) ~
          msgs.filter (fun m => (m.created_at == t) && (m.channel_name == c)) :=
        hperm.filter _
      have h5 : msgs.filter (fun m => (m.created_at == t) && (m.channel_name == c)) =
          (msgs.insertionSort msgLE).filter
            (fun m => (m.created_at == t) && (m.channel_name == c)) :=
        h3.eq_of_length h4.length_eq.symm
      rw [← h5]
      exact List.filter_sublist msgs
  · show bucketsMessages
      ((msgs.insertionSort msgLE).foldl (fun convs m => updateBucket m convs) []) ~ msgs
    calc bucketsMessages ((msgs.insertionSort msgLE).foldl (fun convs m => updateBucket m convs) [])
        ~ bucketsMessages [] ++ msgs.insertionSort msgLE :=
          bucketsMessages_foldl (msgs.insertionSort msgLE) []
      _ = msgs.insertionSort msgLE := by simp [bucketsMessages]
      _ ~ msgs := hperm

/-- Witness for C3: two out-of-order messages in channel `general` land in
one bucket, sorted, channel-keyed, with the timestamp-5 slice a subsequence
of the input, and the bucket messages a permutation of the input. -/
theorem group_messages_partition_sorted_witness :
    findBucket "general" (group_messages_by_context exC3msgs).snd = some exC3bucket ∧
    exC3bucket.messages.Pairwise msgLE ∧
    exC3m1.channel_name = "general" ∧
    exC3bucket.messages.filter (fun m => m.created_at == 5) <+ exC3msgs ∧
    bucketsMessages (group_messages_by_context exC3msgs).snd ~ exC3msgs := by
  have h := group_messages_partition_sorted exC3msgs
  have hb := h.1 "general" exC3bucket (by decide)
  exact ⟨by decide, hb.1, hb.2.1 exC3m1 (by decide), hb.2.2 5, h.2⟩

/-- Counterexample for C4: with two summaries, the main combiner's output
is exactly the header plus the blank-line-joined blocks — nothing follows
the last block, so no generation-timestamp footer is appended (in
particular the output never contains the footer's "generated at" text);
and the lite combiner, which does append a timestamp footer, joins the two
blocks with a single newline, so its output does not contain the
blank-line-separated form "alpha\n\nbeta" the claim requires. -/
theorem combine_summaries_counterexample :
    combine_summaries ["alpha", "beta"] =
      "# " ++ chartGlyph ++
        " Daily Activity Summary\n*2 channels had significant activity*\n\nalpha\n\nbeta" ∧
    containsSub (combine_summaries ["alpha", "beta"]).data "generated at".data = false ∧
    combine_summaries_lite "2025-06-01 12:00 UTC" ["alpha", "beta"] =
      "## Daily Activity Summary\n*2 channels had significant activity*\n\nalpha\nbeta\n---\n*Lightweight summary generated at 2025-06-01 12:00 UTC*" ∧
    containsSub (combine_summaries_lite "2025-06-01 12:00 UTC" ["alpha", "beta"]).data
      "alpha\n\nbeta".data = false := by
  decide

/-- C4 (amended): when more than one channel produced a summary, the main
combiner prepends a header stating the channel count and joins the blocks
with a blank-line separator but appends no footer; the lite combiner
prepends its channel-count header, joins the blocks with a single newline,
and appends the generation-timestamp footer.  When exactly one channel
produced a summary, both return that block unwrapped.  (The blocks arrive
in the order the buckets were first created: `summarize_conversations`
folds over the bucket association list, which `updateBucket` extends in
first-seen order.) -/
theorem combine_summaries_amended (s1 s2 t ts : String) (rest : List String) :
    combine_summaries [t] = t ∧
    combine_summaries (s1 :: s2 :: rest) =
      "# " ++ chartGlyph ++ " Daily Activity Summary\n*" ++ toString (rest.length + 2) ++
        " channels had significant activity*\n\n" ++
        String.intercalate "\n\n" (s1 :: s2 :: rest) ∧
    combine_summaries_lite ts [t] = t ∧
    combine_summaries_lite ts (s1 :: s2 :: rest) =
      ("## Daily Activity Summary\n*" ++ toString (rest.length + 2) ++
        " channels had significant activity*\n\n" ++
        String.intercalate "\n" (s1 :: s2 :: rest)) ++
        ("\n---\n*Lightweight summary generated at " ++ ts ++ "*") := by
  refine ⟨rfl, ?_, rfl, ?_⟩
  · unfold combine_summaries
    rw [if_neg (by simp)]
    rfl
  · unfold combine_summaries_lite
    rw [if_neg (by simp)]
    rfl

/-- Counterexample for C5: two messages given in reverse timestamp order.
`_group_messages_by_context` runs `messages.sort(...)` on the caller's own
list, so after `summarize_conversations` returns, the caller's list is in
sorted order, not its original order. -/
theorem group_mutates_order_counterexample :
    summarize_conversations_messages_after [exC5late, exC5early] ≠ [exC5late, exC5early] := by
  decide

/-- C5 (amended): `summarize_conversations` neither adds, removes nor
rewrites message records — after the call the caller's list holds exactly
the original elements (a permutation) — but the list is re-sorted in place
ascending by `created_at`, so the caller's original order is not
preserved. -/
theorem summarize_messages_after_amended (msgs : List Message) :
    summarize_conversations_messages_after msgs ~ msgs ∧
    (summarize_conversations_messages_after msgs).Sorted msgLE := by
  unfold summarize_conversations_messages_after
  by_cases h : msgs.isEmpty
  · rw [if_pos h]
    have : msgs = [] := by simpa using h
    subst this
    exact ⟨List.Perm.refl _, List.sorted_nil⟩
  · rw [if_neg h]
    exact ⟨List.perm_insertionSort msgLE msgs, List.sorted_insertionSort msgLE msgs⟩

/-- C8: the spec asserts decoration is idempotent and never double-prefixes.
The code contradicts its own cleanup intent ("clean any existing emoji
formatting to prevent duplicates"): for the table's own participant `bee!`,
the first pass decorates `**bee!**`, but a second pass strips the glyph and
emphasis and then cannot re-apply them, because the re-application pattern
`\b`+`bee!`+`\b` never matches (`!` is not a word character, and a word
boundary after it would need a following word character) — so applying the
pass twice differs from applying it once; and a glyph directly adjacent to
a name (no space) escapes both cleanup patterns, so `Emma` preceded by her
glyph is decorated again, double-prefixing the glyph. -/
theorem format_usernames_not_idempotent :
    format_usernames_with_colors "**bee!** hi" ["bee!"] = beeGlyph ++ " **bee!** hi" ∧
    format_usernames_with_colors (beeGlyph ++ " **bee!** hi") ["bee!"] = "bee! hi" ∧
    ("bee! hi" : String) ≠ beeGlyph ++ " **bee!** hi" ∧
    format_usernames_with_colors (pinkGlyph ++ "Emma") ["Emma"] =
      pinkGlyph ++ pinkGlyph ++ " **Emma**" := by
  decide

/-- C9: spoiler noninterference.  Two message lists that agree on authors
and on everything outside spoiler-marked spans (their contents render from
a common template, differing only in the spoiler bodies) produce identical
prepared conversation text: every spoiler span is replaced by the fixed
`[SPOILER CONTENT]` placeholder before anything else happens, so neither
the generated lines nor any downstream decision (such as the
under-10-characters drop) can depend on spoiler contents. -/
theorem spoiler_noninterference (g : Guild) (msgs1 msgs2 : List Message)
    (h : List.Forall₂ spoilerVariant msgs1 msgs2) :
    prepare_conversation_text g msgs1 = prepare_conversation_text g msgs2 := by
  unfold prepare_conversation_text
  suffices hs : msgs1.filterMap (prepareLine g) = msgs2.filterMap (prepareLine g) by rw [hs]
  induction h with
  | nil => rfl
  | cons hpair htail ih =>
    rename_i m1 m2 l1 l2
    obtain ⟨hauthor, plains, b1, b2, hl1, hl2, hp, hb1, hb2, hc1, hc2⟩ := hpair
    have hspo : spoilerSub m1.content.data = spoilerSub m2.content.data := by
      rw [hc1, hc2, spoilerSub_render b1 plains hl1 hp hb1,
        spoilerSub_render b2 plains hl2 hp hb2]
    have hline : prepareLine g m1 = prepareLine g m2 := by
      unfold prepareLine
      rw [hspo, hauthor]
    rw [List.filterMap_cons, List.filterMap_cons, hline, ih]

/-- Witness for C9: two messages sharing the template
`"my guess is ||…|| what do you think"` with different spoiler bodies
prepare to identical text. -/
theorem spoiler_noninterference_witness :
    prepare_conversation_text gEx [exC9m1] = prepare_conversation_text gEx [exC9m2] := by
  refine spoiler_noninterference gEx [exC9m1] [exC9m2]
    (List.Forall₂.cons ?_ List.Forall₂.nil)
  exact ⟨rfl, ["my guess is ", " what do you think"], ["it was the butler"], ["no way jose"],
    by decide, by decide, by decide, by decide, by decide, by decide, by decide⟩

/-- C10: the focus question reaches only the openai tier.  When the remote
client is unconfigured, or its calls always fail, both `_generate_summary`
and `summarize_conversations` return identical results for every value of
the custom prompt — the local and extractive tiers never receive it. -/
theorem custom_prompt_only_via_openai (oc : Option OpenAIOracle) (lc : Option LocalOracle)
    (text : String) (p1 p2 : Option String)
    (h : ∀ f, oc = some f → ∀ t p, isOkE (f t p) = false) :
    generate_summary oc lc text p1 = generate_summary oc lc text p2 ∧
    ∀ (g : Guild) (msgs : List Message),
      summarize_conversations g oc lc msgs p1 = summarize_conversations g oc lc msgs p2 := by
  have hgen : ∀ t, generate_summary oc lc t p1 = generate_summary oc lc t p2 := by
    intro t
    cases oc with
    | none => rfl
    | some f =>
      have h1 := h f rfl t p1
      have h2 := h f rfl t p2
      unfold generate_summary
      cases hf1 : f t p1 with
      | ok r => rw [hf1] at h1; simp [isOkE] at h1
      | error e1 =>
        cases hf2 : f t p2 with
        | ok r => rw [hf2] at h2; simp [isOkE] at h2
        | error e2 => simp only [hf1, hf2]
  refine ⟨hgen text, ?_⟩
  intro g msgs
  have hchan : ∀ (name : String) (cd : ConvData),
      summarize_channel_conversations g oc lc name cd p1 =
        summarize_channel_conversations g oc lc name cd p2 := by
    intro name cd
    unfold summarize_channel_conversations
    dsimp only
    rw [hgen (prepare_conversation_text g cd.messages)]
  unfold summarize_conversations
  by_cases hm : msgs.isEmpty
  · rw [if_pos hm, if_pos hm]
  · rw [if_neg hm, if_neg hm]
    dsimp only
    have hfold : List.foldl
        (fun acc p =>
          match summarize_channel_conversations g oc lc p.fst p.snd p1 with
          | .error _ => acc
          | .ok none => acc
          | .ok (some s) => acc ++ [s])
        ([] : List String) (group_messages_by_context msgs).snd =
      List.foldl
        (fun acc p =>
          match summarize_channel_conversations g oc lc p.fst p.snd p2 with
          | .error _ => acc
          | .ok none => acc
          | .ok (some s) => acc ++ [s])
        ([] : List String) (group_messages_by_context msgs).snd :=
      List.foldl_ext _ _ _ (fun acc p _ => by rw [hchan p.fst p.snd])
    rw [hfold]

/-- Witness for C10: an always-failing remote client, no local model, a
concrete focus question versus no question: the generated result and the
full pipeline result coincide. -/
theorem custom_prompt_only_via_openai_witness :
    generate_summary ocFail none "alice: hello there everyone" (some "who spoke") =
      generate_summary ocFail none "alice: hello there everyone" none ∧
    summarize_conversations gEx ocFail none exC7msgs (some "who spoke") =
      summarize_conversations gEx ocFail none exC7msgs none := by
  have h := custom_prompt_only_via_openai ocFail none "alice: hello there everyone"
    (some "who spoke") none
    (by
      intro f hf t p
      unfold ocFail at hf
      injection hf with hf2
      rw [← hf2]
      rfl)
  exact ⟨h.1, h.2 gEx exC7msgs⟩
